import Mathlib

/-!
Shallow embedding of the routing, rate-limiting, scoring, summarization and
preference-merging core of a multi-agent property-rental chat orchestration
service written in Python, together with theorems settling the
specification claims about that code.

Conventions of the embedding:
* Python strings are Lean `String`s; character-level operations
  (lowercasing, punctuation substitution, whitespace splitting) run on
  `List Char`, which reduces in the kernel.
* Python floats (timestamps, rupee amounts, distances) are modelled as `ℚ`;
  `int(x)` is truncation toward zero (`pyInt`).
* A Redis sorted set holding one score per member (the rate-limit windows)
  is modelled as the list of member scores in insertion order; score-range
  pruning is a filter.
* LLM calls and Redis reads are I/O: each embedded function takes the
  outcome of the call as an explicit argument.
-/

namespace Spec2Proof

/-! ## String helpers shared by the embedded functions -/

/-- Python `str.lower()`.  The messages and keyword tables compared by the
router are ASCII or caseless Devanagari, on which `Char.toLower` agrees
with Python lowercasing. -/
def lowerChars (s : List Char) : List Char := s.map Char.toLower

/-- Python `needle in hay` on strings: substring containment. -/
def subIn (needle hay : List Char) : Bool := decide (needle <:+: hay)

/-- Python regex `\w` in Unicode mode: ASCII alphanumerics, underscore,
and (an approximation valid for this code base, whose only non-ASCII
keywords are Devanagari letters) every non-ASCII character. -/
def isWordChar (c : Char) : Bool := c.isAlphanum || c == '_' || decide (127 < c.val)

/-- Python `str.split()` with no separator: split on whitespace runs and
drop empty fragments. -/
def pySplit (s : List Char) : List (List Char) :=
  (s.splitOnP Char.isWhitespace).filter (fun w => !w.isEmpty)

/-- Python `str.strip()`: drop whitespace at both ends. -/
def pyStrip (s : List Char) : List Char :=
  ((s.dropWhile Char.isWhitespace).reverse.dropWhile Char.isWhitespace).reverse

/-- Python `str.rstrip(chars)`: drop trailing characters drawn from `chars`. -/
def pyRstrip (chars s : List Char) : List Char :=
  (s.reverse.dropWhile (fun c => chars.contains c)).reverse

/-! ## Keyword safety net — src/core/router.py -/

/-- `PROFILE_PHRASES` from src/core/router.py. -/
def PROFILE_PHRASES : List String :=
  ["my visit", "my visits", "my booking", "my bookings",
   "my schedule", "my event", "my events",
   "my preference", "my preferences", "my profile",
   "shortlisted propert", "saved propert",
   "booking status", "visit status", "scheduled event"]

/-- `BROKER_PHRASES` from src/core/router.py. -/
def BROKER_PHRASES : List String :=
  ["more about", "tell me about",
   "details of", "details about", "details for",
   "images of", "photos of", "pictures of",
   "far from", "distance from", "distance to",
   "shortlist this", "shortlist the"]

/-- `PROFILE_WORDS` from src/core/router.py (a Python set; only membership
is ever used, so a list is an adequate model). -/
def PROFILE_WORDS : List String :=
  ["profile", "preference", "preferences", "upcoming",
   "events", "visits", "bookings", "shortlisted"]

/-- `BOOKING_WORDS` from src/core/router.py. -/
def BOOKING_WORDS : List String :=
  ["visit", "schedule", "book", "appointment", "call", "video",
   "tour", "payment", "pay", "token", "kyc", "aadhaar", "otp",
   "reserve", "cancel", "reschedule"]

/-- `BROKER_WORDS` from src/core/router.py. -/
def BROKER_WORDS : List String :=
  ["find", "search", "looking", "property", "properties",
   "pg", "flat", "apartment", "hostel", "coliving", "co-living",
   "room", "rent", "budget", "area", "location", "available",
   "recommend", "suggest", "bhk", "1bhk", "2bhk", "rk",
   "single", "double", "girls", "boys", "sharing",
   "place", "stay", "accommodation", "housing", "near", "nearby",
   "shortlist", "details", "images", "photos",
   "landmark", "landmarks", "distance", "far",
   "kamra", "kiraya", "ghar", "chahiye", "dikhao", "jagah", "rehne",
   "खोली", "भाडे", "जागा", "पाहिजे", "दाखवा", "शोधा", "बुकिंग"]

/-- `AFFIRMATIVES` from src/core/router.py. -/
def AFFIRMATIVES : List String :=
  ["yes", "ok", "okay", "sure", "go ahead", "please",
   "yeah", "yep", "yup", "haan", "ha", "theek hai",
   "kar do", "ho jayega", "confirm", "done", "proceed",
   "हो", "चालेल", "ठीक आहे"]

/-- `NEW_INTENT_WORDS` from src/core/router.py. -/
def NEW_INTENT_WORDS : List String :=
  ["hello", "hi", "hey", "howdy", "namaste",
   "thanks", "thank", "bye", "goodbye",
   "what", "who", "where", "when", "how", "why", "which"]

/-- `apply_keyword_safety_net` from src/core/router.py.  The Redis read
`get_last_agent(user_id)` inside phase 3 is passed in as `lastAgent`
(`none` models a missing key). -/
def apply_keyword_safety_net (agent_name message : String)
    (lastAgent : Option String) : String :=
  if agent_name ≠ "default" then agent_name
  else
    let msgLower := lowerChars message.toList
    let msgClean := msgLower.map (fun c =>
      if isWordChar c || c.isWhitespace || c == '-' then c else ' ')
    let words := pySplit msgClean
    let afterPhases :=
      if PROFILE_PHRASES.any (fun p => subIn p.toList msgLower) then "profile"
      else if BROKER_PHRASES.any (fun p => subIn p.toList msgLower) then "broker"
      else if words.any (fun w => PROFILE_WORDS.any (fun k => w == k.toList)) then "profile"
      else if words.any (fun w => BOOKING_WORDS.any (fun k => w == k.toList)) then "booking"
      else if words.any (fun w => BROKER_WORDS.any (fun k => w == k.toList)) then "broker"
      else "default"
    if afterPhases = "default" then
      match lastAgent with
      | some last =>
        if last != "" && last != "default" then
          let msgStripped := pyRstrip ".!,?".toList (pyStrip msgLower)
          let isNewIntent := words.any (fun w =>
            NEW_INTENT_WORDS.any (fun k => w == k.toList))
          if AFFIRMATIVES.any (fun a => msgStripped == a.toList)
              || (decide ((pySplit message.toList).length ≤ 5) && !isNewIntent) then
            last
          else afterPhases
        else afterPhases
      | none => afterPhases
    else afterPhases

/-- C3: the keyword safety net never overrides a non-default supervisor
verdict — for every agent name other than "default", every message and
every stored last agent, `apply_keyword_safety_net` returns the agent name
unchanged. -/
theorem C3_safety_net_non_interference (agent_name message : String)
    (lastAgent : Option String) (h : agent_name ≠ "default") :
    apply_keyword_safety_net agent_name message lastAgent = agent_name := by
  simp [apply_keyword_safety_net, h]

/-- Witness for C3 at a concrete non-default verdict whose message is full
of booking keywords. -/
theorem C3_witness :
    apply_keyword_safety_net "broker" "book a visit and pay" (some "booking") = "broker" :=
  C3_safety_net_non_interference "broker" "book a visit and pay" (some "booking")
    (by decide)

/-- C8: on the message "my bookings" with supervisor verdict "default" and
stored last agent "booking", the safety net returns "profile" and the
Phase-1 profile phrase match (on "my booking") fires, so the result comes
from the phrase phase, not from the Phase-3 last-agent continuation. -/
theorem C8_phrase_match_beats_continuation :
    apply_keyword_safety_net "default" "my bookings" (some "booking") = "profile" ∧
    PROFILE_PHRASES.any
      (fun p => subIn p.toList (lowerChars "my bookings".toList)) = true := by
  exact ⟨by decide, by decide⟩

/-! ## Supervisor routing — src/agents/supervisor.py -/

/-- `VALID_AGENTS` from src/agents/supervisor.py. -/
def VALID_AGENTS : List String := ["default", "broker", "booking", "profile"]

/-- The dynamic value categories `route` can observe in its `result`
variable: a parsed JSON dict (string-valued fields suffice for the verdict
shape), a coroutine object, or `None`. -/
inductive PyVal where
  | pyDict (entries : List (String × String))
  | pyCoroutine
  | pyNone
  deriving DecidableEq

/-- `AnthropicEngine.classify` is an `async def`, and `route` in
src/agents/supervisor.py calls it without `await`, so the value bound to
`result` is always a coroutine object; the classification outcome the
coroutine would eventually produce (`outcome` here, `none` for a failed
call) is never inspected. -/
def classifyCallUnawaited (outcome : Option (List (String × String))) : PyVal :=
  match outcome with
  | _ => PyVal.pyCoroutine

/-- Python truthiness of the values `route` can observe. -/
def pyTruthy : PyVal → Bool
  | .pyDict entries => !entries.isEmpty
  | .pyCoroutine => true
  | .pyNone => false

/-- Python `dict.get(key, default)` for a string-valued dict. -/
def dictGet (entries : List (String × String)) (k dflt : String) : String :=
  match entries.lookup k with
  | some v => v
  | none => dflt

/-- The verdict-inspection tail of `route` (src/agents/supervisor.py):
`if result and isinstance(result, dict): agent = result.get("agent",
"").lower().strip(); if agent in VALID_AGENTS: return agent` followed by
`return "default"`. -/
def verdictToAgent (result : PyVal) : String :=
  match result with
  | .pyDict entries =>
    if pyTruthy (.pyDict entries) then
      let agent := String.mk (pyStrip (lowerChars (dictGet entries "agent" "").toList))
      if agent ∈ VALID_AGENTS then agent else "default"
    else "default"
  | _ => "default"

/-- `route` from src/agents/supervisor.py.  `messages` is the history the
supervisor trims; `outcome` is what the awaited classification call would
return. -/
def route (messages : List String) (outcome : Option (List (String × String))) :
    String :=
  let _trimmed :=
    if 4 < messages.length then messages.drop (messages.length - 4) else messages
  verdictToAgent (classifyCallUnawaited outcome)

/-- C1: because `route` never awaits the async `classify` call, the value
it inspects is a coroutine object and it returns "default" for every
message history and every classification outcome — while the
verdict-inspection logic itself, given the awaited dict verdict, would have
returned the classified agent. -/
theorem C1_route_missing_await :
    (∀ (messages : List String) (outcome : Option (List (String × String))),
      route messages outcome = "default") ∧
    verdictToAgent (.pyDict [("agent", "booking")]) = "booking" := by
  exact ⟨fun _ _ => rfl, by decide⟩

/-! ## Agent tool-use loop — src/core/claude.py -/

/-- A content block of a model response: src/core/claude.py handles exactly
text blocks and tool-call blocks. -/
inductive ContentBlock where
  | text (t : String)
  | toolUse (id name input : String)
  deriving DecidableEq

/-- The content of a stored message: a plain string, a serialized block
list (assistant tool-call turns), or a list of (tool_use_id, content)
tool results (the user-role continuation the loop appends). -/
inductive MsgContent where
  | ofText (s : String)
  | ofBlocks (blocks : List ContentBlock)
  | ofToolResults (results : List (String × String))
  deriving DecidableEq

/-- A role-tagged conversation message. -/
structure Message where
  role : String
  content : MsgContent
  deriving DecidableEq

/-- What `_call_api` hands back on success. -/
structure ModelResponse where
  stop_reason : String
  content : List ContentBlock
  deriving DecidableEq

/-- `AnthropicEngine._extract_text`: newline-join of the text blocks. -/
def extract_text (response : ModelResponse) : String :=
  String.intercalate "\n" (response.content.filterMap (fun b =>
    match b with
    | .text t => some t
    | _ => none))

/-- `AnthropicEngine._serialize_content`: keeps the text and tool_use
blocks (the only two kinds the model emits). -/
def serialize_content (content : List ContentBlock) : List ContentBlock :=
  content.filterMap (fun b =>
    match b with
    | .text t => some (.text t)
    | .toolUse i n inp => some (.toolUse i n inp))

/-- `settings.MAX_AGENT_ITERATIONS` from src/config.py. -/
def MAX_AGENT_ITERATIONS : ℕ := 15

/-- `AnthropicEngine.run_agent` from src/core/claude.py.  `respond` is the
outcome of `_call_api` on the current message list (`none` models retry
exhaustion); `execTool` is `self.tool_executor.execute(name, input,
user_id)` with the user id fixed.  `asyncio.gather` preserves result
order, so the concurrent tool fan-out equals the in-order map used here.
Returns the user-facing string and the number of model calls made. -/
def run_agent (respond : List Message → Option ModelResponse)
    (execTool : String → String → String) :
    List Message → ℕ → String × ℕ
  | _, 0 => ("I\x27m having trouble processing this request. Could you rephrase?", 0)
  | messages, iterationsLeft + 1 =>
    match respond messages with
    | none => ("I\x27m experiencing a temporary issue. Please try again.", 1)
    | some response =>
      if response.stop_reason = "end_turn" then (extract_text response, 1)
      else if response.stop_reason = "tool_use" then
        let toolBlocks := response.content.filterMap (fun b =>
          match b with
          | .toolUse i n inp => some (i, n, inp)
          | _ => none)
        let toolResults := toolBlocks.map (fun b => (b.1, execTool b.2.1 b.2.2))
        let next := messages ++
          [⟨"assistant", .ofBlocks (serialize_content response.content)⟩,
           ⟨"user", .ofToolResults toolResults⟩]
        let rest := run_agent respond execTool next iterationsLeft
        (rest.1, rest.2 + 1)
      else (extract_text response, 1)

/-- C2: when every model call succeeds with stop_reason "tool_use", the
tool loop makes at most `maxIterations` model calls and then returns the
fixed fallback string — it never loops unboundedly. -/
theorem C2_tool_loop_terminates (respond : List Message → Option ModelResponse)
    (execTool : String → String → String) (messages : List Message)
    (maxIterations : ℕ)
    (h : ∀ ms, ∃ r, respond ms = some r ∧ r.stop_reason = "tool_use") :
    (run_agent respond execTool messages maxIterations).1 =
      "I\x27m having trouble processing this request. Could you rephrase?" ∧
    (run_agent respond execTool messages maxIterations).2 ≤ maxIterations := by
  induction maxIterations generalizing messages with
  | zero => exact ⟨rfl, le_refl 0⟩
  | succ n ih =>
    obtain ⟨r, hr, hs⟩ := h messages
    have hne : ¬(r.stop_reason = "end_turn") := by rw [hs]; decide
    simp only [run_agent, hr, hs, if_neg hne, if_pos rfl]
    rw [hs] at hne
    simp only [if_neg hne, if_pos rfl]
    refine ⟨(ih _).1, ?_⟩
    exact Nat.succ_le_succ (ih _).2

/-- Witness for C2: a mocked model that always answers with stop_reason
"tool_use" makes the loop stop after 3 calls with the fallback string. -/
theorem C2_witness :
    (run_agent (fun _ => some ⟨"tool_use", []⟩) (fun _ _ => "") [] 3).1 =
      "I\x27m having trouble processing this request. Could you rephrase?" ∧
    (run_agent (fun _ => some ⟨"tool_use", []⟩) (fun _ _ => "") [] 3).2 ≤ 3 :=
  C2_tool_loop_terminates (fun _ => some ⟨"tool_use", []⟩) (fun _ _ => "") [] 3
    (fun _ => ⟨⟨"tool_use", []⟩, rfl, rfl⟩)

/-! ## Sliding-window rate limiter — src/core/rate_limiter.py -/

/-- Python `int()` applied to a float: truncation toward zero. -/
def pyInt (q : ℚ) : ℤ := if q < 0 then -⌊-q⌋ else ⌊q⌋

/-- Smallest score in a window (`ZRANGE key 0 0` on the sorted set). -/
def listMin : List ℚ → Option ℚ
  | [] => none
  | x :: xs =>
    match listMin xs with
    | some m => some (min x m)
    | none => some x

/-- `settings.RATE_LIMIT_USER_PER_MINUTE` from src/config.py. -/
def RATE_LIMIT_USER_PER_MINUTE : ℕ := 6

/-- `settings.RATE_LIMIT_USER_PER_HOUR` from src/config.py. -/
def RATE_LIMIT_USER_PER_HOUR : ℕ := 30

/-- `settings.RATE_LIMIT_GLOBAL_PER_MINUTE` from src/config.py. -/
def RATE_LIMIT_GLOBAL_PER_MINUTE : ℕ := 100

/-- `_sliding_window_check` from src/core/rate_limiter.py over one Redis
sorted set, modelled as its list of member scores (each request adds a
fresh member whose score is its timestamp; the random member suffix only
guarantees uniqueness).  `ZREMRANGEBYSCORE key -inf window_start` removes
scores `≤ window_start`; on rejection the optimistic add is rolled back and
`retry_after` is computed from the oldest surviving score.  Returns the
result (`none` = allowed, `some retryAfter` = rejected) and the window as
left in Redis. -/
def slidingWindowCheck (window : List ℚ) (now windowSeconds : ℚ)
    (maxRequests : ℕ) : Option ℤ × List ℚ :=
  let windowStart := now - windowSeconds
  let pruned := window.filter (fun ts => decide (windowStart < ts))
  let afterAdd := pruned ++ [now]
  if maxRequests < afterAdd.length then
    let retryAfter : ℤ :=
      match listMin pruned with
      | some oldest => max 1 (pyInt (oldest + windowSeconds - now) + 1)
      | none => 1
    (some retryAfter, pruned)
  else (none, afterAdd)

/-- A sequence of requests hitting one tier in order: threads the window
state through `slidingWindowCheck` and collects each request's result. -/
def processRequests (window times : List ℚ) (windowSeconds : ℚ)
    (maxRequests : ℕ) : List (Option ℤ) × List ℚ :=
  match times with
  | [] => ([], window)
  | t :: ts =>
    let step := slidingWindowCheck window t windowSeconds maxRequests
    let rest := processRequests step.2 ts windowSeconds maxRequests
    (step.1 :: rest.1, rest.2)

/-- The exception payload `RateLimitExceeded` carries. -/
structure RateLimitExceeded where
  retry_after : ℤ
  tier : String
  limit : ℕ
  deriving DecidableEq

/-- The three per-key windows `check_rate_limit` touches for one user:
`rl:{user}:min`, `rl:{user}:hr`, and `rl:__global__:min`. -/
structure RLState where
  userMin : List ℚ
  userHr : List ℚ
  globalMin : List ℚ
  deriving DecidableEq

/-- `check_rate_limit` from src/core/rate_limiter.py: the three tiers are
checked in order; the first tier exceeded raises, leaving in Redis
whatever each executed check wrote. -/
def check_rate_limit (st : RLState) (now : ℚ) :
    Option RateLimitExceeded × RLState :=
  match slidingWindowCheck st.userMin now 60 RATE_LIMIT_USER_PER_MINUTE with
  | (some retry, w1) =>
    (some ⟨retry, "user/min", RATE_LIMIT_USER_PER_MINUTE⟩, { st with userMin := w1 })
  | (none, w1) =>
    match slidingWindowCheck st.userHr now 3600 RATE_LIMIT_USER_PER_HOUR with
    | (some retry, w2) =>
      (some ⟨retry, "user/hr", RATE_LIMIT_USER_PER_HOUR⟩,
       { st with userMin := w1, userHr := w2 })
    | (none, w2) =>
      match slidingWindowCheck st.globalMin now 60 RATE_LIMIT_GLOBAL_PER_MINUTE with
      | (some retry, w3) =>
        (some ⟨retry, "global/min", RATE_LIMIT_GLOBAL_PER_MINUTE⟩,
         { st with userMin := w1, userHr := w2, globalMin := w3 })
      | (none, w3) => (none, ⟨w1, w2, w3⟩)

/-! Helper lemmas about `listMin` and the window step. -/

lemma listMin_isSome {l : List ℚ} (h : l ≠ []) : (listMin l).isSome := by
  cases l with
  | nil => exact absurd rfl h
  | cons x xs => rw [listMin]; cases listMin xs <;> simp

lemma listMin_mem : ∀ {l : List ℚ} {m : ℚ}, listMin l = some m → m ∈ l
  | [], m, h => by simp [listMin] at h
  | x :: xs, m, h => by
    rw [listMin] at h
    cases hxs : listMin xs with
    | none =>
      rw [hxs] at h
      have hxm : x = m := by injection h
      rw [← hxm]; exact List.mem_cons_self x xs
    | some m0 =>
      rw [hxs] at h
      have hmin : min x m0 = m := by injection h
      rcases le_total x m0 with hle | hle
      · have hm : m = x := by rw [← hmin, min_eq_left hle]
        rw [hm]; exact List.mem_cons_self x xs
      · have hm : m = m0 := by rw [← hmin, min_eq_right hle]
        rw [hm]; exact List.mem_cons_of_mem x (listMin_mem hxs)

lemma listMin_le : ∀ {l : List ℚ} {m : ℚ}, listMin l = some m → ∀ x ∈ l, m ≤ x
  | [], m, h => by simp [listMin] at h
  | x :: xs, m, h => by
    rw [listMin] at h
    cases hxs : listMin xs with
    | none =>
      rw [hxs] at h
      have hxm : x = m := by injection h
      intro y hy
      cases xs with
      | nil =>
        have hyx : y = x := by simpa using hy
        rw [hyx, hxm]
      | cons a as =>
        exfalso
        have hsome := listMin_isSome (l := a :: as) (by simp)
        rw [hxs] at hsome
        simp at hsome
    | some m0 =>
      rw [hxs] at h
      have hmin : min x m0 = m := by injection h
      intro y hy
      rcases List.mem_cons.mp hy with h1 | h1
      · rw [h1, ← hmin]; exact min_le_left x m0
      · calc m = min x m0 := hmin.symm
          _ ≤ m0 := min_le_right x m0
          _ ≤ y := listMin_le hxs y h1

/-- If some element of the list fails the filter, the filter shrinks. -/
lemma length_filter_lt {α : Type} (p : α → Bool) (l : List α) (x : α)
    (hx : x ∈ l) (hpx : p x = false) : (l.filter p).length < l.length := by
  induction l with
  | nil => simp at hx
  | cons a as ih =>
    rcases List.mem_cons.mp hx with h1 | h1
    · subst h1
      rw [List.filter_cons, hpx]
      simp only [List.length_cons]
      exact Nat.lt_succ_of_le (List.length_filter_le p as)
    · rw [List.filter_cons]
      cases hpa : p a <;> simp only [List.length_cons]
      · exact Nat.lt_succ_of_lt (ih h1)
      · exact Nat.succ_lt_succ (ih h1)

/-- A single check passes and appends the new timestamp whenever nothing is
pruned and the window is strictly under the cap. -/
lemma slidingWindowCheck_pass {w : List ℚ} {t W : ℚ} {cap : ℕ}
    (hkeep : ∀ s ∈ w, t - W < s) (hlen : w.length < cap) :
    slidingWindowCheck w t W cap = (none, w ++ [t]) := by
  simp only [slidingWindowCheck]
  have hfilter : w.filter (fun ts => decide (t - W < ts)) = w :=
    List.filter_eq_self.mpr (fun a ha => decide_eq_true (hkeep a ha))
  rw [hfilter]
  rw [if_neg (by simp only [List.length_append, List.length_cons, List.length_nil]; omega)]

/-- A single check rejects, rolls back to the untouched window and reports
the retry computed from the oldest score whenever nothing is pruned and the
window is already at (or above) the cap. -/
lemma slidingWindowCheck_reject {w : List ℚ} {t W : ℚ} {cap : ℕ} {m : ℚ}
    (hkeep : ∀ s ∈ w, t - W < s) (hm : listMin w = some m)
    (hcap : cap < w.length + 1) :
    slidingWindowCheck w t W cap = (some (max 1 (pyInt (m + W - t) + 1)), w) := by
  simp only [slidingWindowCheck]
  have hfilter : w.filter (fun ts => decide (t - W < ts)) = w :=
    List.filter_eq_self.mpr (fun a ha => decide_eq_true (hkeep a ha))
  rw [hfilter]
  have hcond : cap < (w ++ [t]).length := by
    simp only [List.length_append, List.length_cons, List.length_nil]; omega
  rw [if_pos hcond, hm]

lemma listMin_replicate (n : ℕ) (x : ℚ) :
    listMin (List.replicate (n + 1) x) = some x := by
  induction n with
  | zero => rfl
  | succ k ih =>
    rw [List.replicate_succ, listMin, ih]
    simp

/-- All requests pass when the window plus the whole batch fits under the
cap and every incoming request is within the window of everything already
recorded. -/
lemma processRequests_all_pass {W : ℚ} {cap : ℕ} :
    ∀ (times w : List ℚ),
      (∀ s ∈ w, ∀ t ∈ times, t - W < s) →
      (∀ t1 ∈ times, ∀ t2 ∈ times, t2 - W < t1) →
      w.length + times.length ≤ cap →
      processRequests w times W cap = (List.replicate times.length none, w ++ times)
  | [], w, _, _, _ => by simp [processRequests]
  | t :: ts, w, hw, hpair, hlen => by
    rw [processRequests]
    have hstep : slidingWindowCheck w t W cap = (none, w ++ [t]) := by
      refine slidingWindowCheck_pass (fun s hs => hw s hs t (List.mem_cons_self t ts)) ?_
      simp at hlen; omega
    rw [hstep]
    have hw2 : ∀ s ∈ w ++ [t], ∀ t2 ∈ ts, t2 - W < s := by
      intro s hs t2 ht2
      rcases List.mem_append.mp hs with h1 | h1
      · exact hw s h1 t2 (List.mem_cons_of_mem t ht2)
      · rw [List.mem_singleton.mp h1]
        exact hpair t (List.mem_cons_self t ts) t2 (List.mem_cons_of_mem t ht2)
    have hpair2 : ∀ t1 ∈ ts, ∀ t2 ∈ ts, t2 - W < t1 := fun t1 h1 t2 h2 =>
      hpair t1 (List.mem_cons_of_mem t h1) t2 (List.mem_cons_of_mem t h2)
    have hlen2 : (w ++ [t]).length + ts.length ≤ cap := by simp at hlen ⊢; omega
    rw [processRequests_all_pass ts (w ++ [t]) hw2 hpair2 hlen2]
    simp [List.replicate_succ]

/-- C4 (amended): for one sliding-window tier with window `W` and cap
`cap`, starting from an empty window, `cap` requests within a `W`-second
interval all pass; a further request in the same interval is rejected with
`retry_after > 0`; once `retry_after` has elapsed a new request passes; and
for the cap-6-per-60s tier the rejected request's `retry_after` is at most
61 (not 60: when the rejected request carries exactly the oldest
timestamp, `int(oldest + 60 - now) + 1` evaluates to 61). -/
theorem C4_sliding_window_amended (W : ℚ) (cap : ℕ) (times : List ℚ) (t : ℚ)
    (hcap : 0 < cap) (hlen : times.length = cap)
    (hpair : ∀ t1 ∈ times ++ [t], ∀ t2 ∈ times ++ [t], t2 - W < t1)
    (hchron : ∀ s ∈ times, s ≤ t) :
    processRequests [] times W cap = (List.replicate cap none, times) ∧
    ∃ r : ℤ, slidingWindowCheck times t W cap = (some r, times) ∧ 0 < r ∧
      (slidingWindowCheck times (t + (r : ℚ)) W cap).1 = none ∧
      (W = 60 → cap = 6 → r ≤ 61) := by
  have hpairT : ∀ t1 ∈ times, ∀ t2 ∈ times, t2 - W < t1 := fun t1 h1 t2 h2 =>
    hpair t1 (List.mem_append_left _ h1) t2 (List.mem_append_left _ h2)
  have hwinAll : ∀ s ∈ times, t - W < s := fun s hs =>
    hpair s (List.mem_append_left _ hs) t
      (List.mem_append_right _ (List.mem_singleton.mpr rfl))
  constructor
  · have hall := processRequests_all_pass times [] (by simp) hpairT
      (show ([] : List ℚ).length + times.length ≤ cap by simp [hlen])
    simpa [hlen] using hall
  · have hne : times ≠ [] := by
      intro h0; rw [h0] at hlen; simp at hlen; omega
    obtain ⟨m, hm⟩ := Option.isSome_iff_exists.mp (listMin_isSome hne)
    have hmem : m ∈ times := listMin_mem hm
    have hwin : t - W < m := hwinAll m hmem
    have hmt : m ≤ t := hchron m hmem
    have hpy : pyInt (m + W - t) = ⌊m + W - t⌋ := by
      rw [pyInt, if_neg (by linarith)]
    refine ⟨max 1 (pyInt (m + W - t) + 1), ?_, ?_, ?_, ?_⟩
    · exact slidingWindowCheck_reject hwinAll hm
        (show cap < times.length + 1 by omega)
    · exact lt_of_lt_of_le Int.zero_lt_one (le_max_left _ _)
    · set r : ℤ := max 1 (pyInt (m + W - t) + 1) with hr
      have h1 : (⌊m + W - t⌋ : ℤ) + 1 ≤ r := by rw [hr, ← hpy]; exact le_max_right _ _
      have h2 : (m + W - t : ℚ) < ⌊m + W - t⌋ + 1 := Int.lt_floor_add_one _
      have h3 : ((⌊m + W - t⌋ + 1 : ℤ) : ℚ) ≤ (r : ℚ) := by exact_mod_cast h1
      have hrq : m + W - t < (r : ℚ) := by push_cast at h3; linarith
      have hmfail : (decide (t + (r : ℚ) - W < m)) = false := by
        apply decide_eq_false
        intro hcontra
        linarith
      have hltlen :
          (times.filter (fun ts => decide (t + (r : ℚ) - W < ts))).length < cap := by
        rw [← hlen]
        exact length_filter_lt _ times m hmem hmfail
      simp only [slidingWindowCheck]
      rw [if_neg (by simp only [List.length_append, List.length_cons,
        List.length_nil]; omega)]
    · intro hW _
      subst hW
      have hfl : ⌊m + (60:ℚ) - t⌋ ≤ 60 := by
        calc ⌊m + (60:ℚ) - t⌋ ≤ ⌊(60:ℚ)⌋ := Int.floor_le_floor (by linarith)
          _ = 60 := by norm_num
      rw [hpy]
      exact max_le (by omega) (by omega)

/-- Witness for C4 (amended) at the cap-6-per-minute tier with six requests
at time 0 and the seventh also at time 0. -/
theorem C4_amended_witness :
    processRequests [] (List.replicate 6 (0:ℚ)) 60 6 =
      (List.replicate 6 none, List.replicate 6 0) ∧
    ∃ r : ℤ, slidingWindowCheck (List.replicate 6 (0:ℚ)) 0 60 6 =
        (some r, List.replicate 6 0) ∧ 0 < r ∧
      (slidingWindowCheck (List.replicate 6 (0:ℚ)) ((0:ℚ) + (r : ℚ)) 60 6).1 = none ∧
      ((60:ℚ) = 60 → 6 = 6 → r ≤ 61) := by
  apply C4_sliding_window_amended 60 6 (List.replicate 6 0) 0 (by norm_num) (by simp)
  · intro t1 h1 t2 h2
    have e1 : t1 = 0 := by
      rcases List.mem_append.mp h1 with hx | hx
      · exact List.eq_of_mem_replicate hx
      · simpa using hx
    have e2 : t2 = 0 := by
      rcases List.mem_append.mp h2 with hx | hx
      · exact List.eq_of_mem_replicate hx
      · simpa using hx
    rw [e1, e2]
    norm_num
  · intro s hs
    exact le_of_eq (List.eq_of_mem_replicate hs)

/-- C4 counterexample to the claim as stated: six requests at time 0 all
pass at the cap-6-per-60s tier, and a seventh request at the same instant
is rejected with `retry_after = 61`, which is not at most 60. -/
theorem C4_counterexample :
    processRequests [] (List.replicate 6 (0:ℚ)) 60 6 =
      (List.replicate 6 none, List.replicate 6 0) ∧
    (slidingWindowCheck (List.replicate 6 (0:ℚ)) 0 60 6).1 = some 61 ∧
    ¬((61:ℤ) ≤ 60) := by
  have hpair : ∀ t1 ∈ List.replicate 6 (0:ℚ), ∀ t2 ∈ List.replicate 6 (0:ℚ),
      t2 - 60 < t1 := by
    intro t1 h1 t2 h2
    rw [List.eq_of_mem_replicate h1, List.eq_of_mem_replicate h2]
    norm_num
  have hkeep : ∀ s ∈ List.replicate 6 (0:ℚ), (0:ℚ) - 60 < s := by
    intro s hs
    rw [List.eq_of_mem_replicate hs]
    norm_num
  refine ⟨?_, ?_, by norm_num⟩
  · have hall := processRequests_all_pass (List.replicate 6 (0:ℚ)) [] (by simp)
      hpair
      (show ([] : List ℚ).length + (List.replicate 6 (0:ℚ)).length ≤ 6 by simp)
    simpa using hall
  · rw [slidingWindowCheck_reject hkeep (listMin_replicate 5 0)
      (show 6 < (List.replicate 6 (0:ℚ)).length + 1 by simp)]
    norm_num [pyInt]

/-! Helper lemmas describing what one window check leaves in Redis. -/

lemma slidingWindowCheck_snd_of_none {w w2 : List ℚ} {t W : ℚ} {cap : ℕ}
    (h : slidingWindowCheck w t W cap = (none, w2)) :
    w2 = w.filter (fun ts => decide (t - W < ts)) ++ [t] := by
  simp only [slidingWindowCheck] at h
  by_cases hc : cap < (w.filter (fun ts => decide (t - W < ts)) ++ [t]).length
  · rw [if_pos hc] at h
    exact absurd (congrArg Prod.fst h) (by simp)
  · rw [if_neg hc] at h
    exact (congrArg Prod.snd h).symm

lemma slidingWindowCheck_snd_of_some {w w2 : List ℚ} {t W : ℚ} {cap : ℕ} {r : ℤ}
    (h : slidingWindowCheck w t W cap = (some r, w2)) :
    w2 = w.filter (fun ts => decide (t - W < ts)) := by
  simp only [slidingWindowCheck] at h
  by_cases hc : cap < (w.filter (fun ts => decide (t - W < ts)) ++ [t]).length
  · rw [if_pos hc] at h
    exact (congrArg Prod.snd h).symm
  · rw [if_neg hc] at h
    exact absurd (congrArg Prod.fst h) (by simp)

/-- C10: when `check_rate_limit` rejects at the per-user-per-hour or the
global-per-minute tier, only the rejecting tier's optimistically added
timestamp is rolled back: every earlier tier's window keeps the entry just
added for this request (and later tiers are untouched), so a rejected
request still consumes quota in every tier checked before the rejecting
one. -/
theorem C10_reject_keeps_earlier_tiers (st : RLState) (now : ℚ)
    (e : RateLimitExceeded) (st2 : RLState)
    (h : check_rate_limit st now = (some e, st2))
    (htier : e.tier = "user/hr" ∨ e.tier = "global/min") :
    st2.userMin = st.userMin.filter (fun ts => decide (now - 60 < ts)) ++ [now] ∧
    (e.tier = "user/hr" →
      st2.userHr = st.userHr.filter (fun ts => decide (now - 3600 < ts)) ∧
      st2.globalMin = st.globalMin) ∧
    (e.tier = "global/min" →
      st2.userHr = st.userHr.filter (fun ts => decide (now - 3600 < ts)) ++ [now] ∧
      st2.globalMin = st.globalMin.filter (fun ts => decide (now - 60 < ts))) := by
  unfold check_rate_limit at h
  rcases hA : slidingWindowCheck st.userMin now 60 RATE_LIMIT_USER_PER_MINUTE
    with ⟨oA, wA⟩
  rw [hA] at h
  cases oA with
  | some rA =>
    dsimp only at h
    injection h with h1 _
    injection h1 with h1
    have htier2 : ("user/min" = "user/hr") ∨ ("user/min" = "global/min") := by
      rw [← h1] at htier
      exact htier
    rcases htier2 with hx | hx <;> exact absurd hx (by decide)
  | none =>
    dsimp only at h
    rcases hB : slidingWindowCheck st.userHr now 3600 RATE_LIMIT_USER_PER_HOUR
      with ⟨oB, wB⟩
    rw [hB] at h
    cases oB with
    | some rB =>
      dsimp only at h
      injection h with h1 h2
      injection h1 with h1
      have huserMin : st2.userMin = wA := by rw [← h2]
      have huserHr : st2.userHr = wB := by rw [← h2]
      have hglobal : st2.globalMin = st.globalMin := by rw [← h2]
      have htierB : e.tier = "user/hr" := by rw [← h1]
      refine ⟨?_, ?_, ?_⟩
      · rw [huserMin, slidingWindowCheck_snd_of_none hA]
      · intro _
        exact ⟨by rw [huserHr, slidingWindowCheck_snd_of_some hB], hglobal⟩
      · intro hx
        rw [htierB] at hx
        exact absurd hx (by decide)
    | none =>
      dsimp only at h
      rcases hC : slidingWindowCheck st.globalMin now 60 RATE_LIMIT_GLOBAL_PER_MINUTE
        with ⟨oC, wC⟩
      rw [hC] at h
      cases oC with
      | some rC =>
        dsimp only at h
        injection h with h1 h2
        injection h1 with h1
        have huserMin : st2.userMin = wA := by rw [← h2]
        have huserHr : st2.userHr = wB := by rw [← h2]
        have hglobal : st2.globalMin = wC := by rw [← h2]
        have htierC : e.tier = "global/min" := by rw [← h1]
        refine ⟨?_, ?_, ?_⟩
        · rw [huserMin, slidingWindowCheck_snd_of_none hA]
        · intro hx
          rw [htierC] at hx
          exact absurd hx (by decide)
        · intro _
          exact ⟨by rw [huserHr, slidingWindowCheck_snd_of_none hB],
            by rw [hglobal, slidingWindowCheck_snd_of_some hC]⟩
      | none =>
        dsimp only at h
        exact absurd (congrArg Prod.fst h) (by simp)

/-- Witness for C10: with an empty per-minute window and 30 entries at time
0 in the per-hour window, a request at time 10 is rejected at the
"user/hr" tier; the per-minute window keeps the new timestamp 10 while the
per-hour window holds only its pruned old entries. -/
theorem C10_witness :
    ((⟨[10], List.replicate 30 (0:ℚ), []⟩ : RLState).userMin =
      ([] : List ℚ).filter (fun ts => decide ((10:ℚ) - 60 < ts)) ++ [10]) ∧
    ((⟨[10], List.replicate 30 (0:ℚ), []⟩ : RLState).userHr =
      (List.replicate 30 (0:ℚ)).filter (fun ts => decide ((10:ℚ) - 3600 < ts)) ∧
     (⟨[10], List.replicate 30 (0:ℚ), []⟩ : RLState).globalMin = ([] : List ℚ)) := by
  have hA : slidingWindowCheck ([] : List ℚ) 10 60 RATE_LIMIT_USER_PER_MINUTE =
      (none, [10]) := by
    have hp : slidingWindowCheck ([] : List ℚ) 10 60 RATE_LIMIT_USER_PER_MINUTE =
        (none, [] ++ [10]) :=
      slidingWindowCheck_pass (by simp) (by norm_num [RATE_LIMIT_USER_PER_MINUTE])
    simpa using hp
  have hB : slidingWindowCheck (List.replicate 30 (0:ℚ)) 10 3600
      RATE_LIMIT_USER_PER_HOUR = (some 3591, List.replicate 30 0) := by
    have hkeep : ∀ s ∈ List.replicate 30 (0:ℚ), (10:ℚ) - 3600 < s := by
      intro s hs
      rw [List.eq_of_mem_replicate hs]
      norm_num
    rw [slidingWindowCheck_reject hkeep (listMin_replicate 29 0)
      (show RATE_LIMIT_USER_PER_HOUR < (List.replicate 30 (0:ℚ)).length + 1
        by norm_num [RATE_LIMIT_USER_PER_HOUR])]
    norm_num [pyInt]
  have hcheck : check_rate_limit ⟨[], List.replicate 30 (0:ℚ), []⟩ 10 =
      (some ⟨3591, "user/hr", RATE_LIMIT_USER_PER_HOUR⟩,
       ⟨[10], List.replicate 30 0, []⟩) := by
    unfold check_rate_limit
    dsimp only
    rw [hA]
    dsimp only
    rw [hB]
  have happ := C10_reject_keeps_earlier_tiers ⟨[], List.replicate 30 0, []⟩ 10
    ⟨3591, "user/hr", RATE_LIMIT_USER_PER_HOUR⟩ ⟨[10], List.replicate 30 0, []⟩
    hcheck (Or.inl rfl)
  exact ⟨happ.1, happ.2.1 rfl⟩

/-! ## Cross-session memory lead scoring — src/db/redis_store.py -/

/-- The fields of the user-memory record read by `_calculate_lead_score`.
`days_inactive` models `(date.today() - date.fromisoformat(last_seen)).days`
when `last_seen` is non-empty and parses, and is `none` otherwise (the code
then skips the decay term). -/
structure UserMemory where
  session_count : ℕ
  properties_viewed : List String
  properties_shortlisted : List String
  visits_scheduled : List String
  phone_collected : Bool
  last_search_location : String
  last_search_budget : String
  days_inactive : Option ℤ
  deriving DecidableEq

/-- `_calculate_lead_score` from src/db/redis_store.py.  Python `//` is
floor division (`Int.fdiv`). -/
def calculate_lead_score (mem : UserMemory) : ℤ :=
  let s : ℤ := 0
  let s := s + min 20 ((mem.session_count : ℤ) * 5)
  let s := s + min 15 ((mem.properties_viewed.length : ℤ) * 2)
  let s := s + min 15 ((mem.properties_shortlisted.length : ℤ) * 5)
  let s := s + min 20 ((mem.visits_scheduled.length : ℤ) * 10)
  let s := s + (if mem.phone_collected then 10 else 0)
  let s := s + (if mem.last_search_location ≠ "" then 5 else 0)
  let s := s + (if mem.last_search_budget ≠ "" then 5 else 0)
  let s :=
    match mem.days_inactive with
    | some days => s - min 20 (Int.fdiv days 7 * 5)
    | none => s
  max 0 (min 100 s)

/-- The lead score exactly as claim C5 words it: the capped positive
components minus an **uncapped** decay of 5 points per full week of
inactivity, clamped to `[0, 100]`. -/
def leadScoreClaimed (mem : UserMemory) : ℤ :=
  max 0 (min 100
    (min 20 ((mem.session_count : ℤ) * 5) +
     min 15 ((mem.properties_viewed.length : ℤ) * 2) +
     min 15 ((mem.properties_shortlisted.length : ℤ) * 5) +
     min 20 ((mem.visits_scheduled.length : ℤ) * 10) +
     (if mem.phone_collected then 10 else 0) +
     (if mem.last_search_location ≠ "" then 5 else 0) +
     (if mem.last_search_budget ≠ "" then 5 else 0) -
     (match mem.days_inactive with
      | some days => Int.fdiv days 7 * 5
      | none => 0)))

/-- The lead score as claim C5 amended: same components, with the recency
decay capped at 20 points. -/
def leadScoreAmended (mem : UserMemory) : ℤ :=
  max 0 (min 100
    (min 20 ((mem.session_count : ℤ) * 5) +
     min 15 ((mem.properties_viewed.length : ℤ) * 2) +
     min 15 ((mem.properties_shortlisted.length : ℤ) * 5) +
     min 20 ((mem.visits_scheduled.length : ℤ) * 10) +
     (if mem.phone_collected then 10 else 0) +
     (if mem.last_search_location ≠ "" then 5 else 0) +
     (if mem.last_search_budget ≠ "" then 5 else 0) -
     (match mem.days_inactive with
      | some days => min 20 (Int.fdiv days 7 * 5)
      | none => 0)))

/-- C5 counterexample to the claim as stated: a user at every positive cap
who has been inactive for 5 full weeks scores 70 in the code (decay capped
at 20) but 65 under the claim's uncapped 5-points-per-week decay. -/
theorem C5_counterexample :
    calculate_lead_score
      ⟨4, ["p1", "p2", "p3", "p4", "p5", "p6", "p7", "p8"], ["p1", "p2", "p3"],
       ["p1", "p2"], true, "andheri", "8000", some 35⟩ = 70 ∧
    leadScoreClaimed
      ⟨4, ["p1", "p2", "p3", "p4", "p5", "p6", "p7", "p8"], ["p1", "p2", "p3"],
       ["p1", "p2"], true, "andheri", "8000", some 35⟩ = 65 ∧
    (70 : ℤ) ≠ 65 :=
  ⟨by decide, by decide, by decide⟩

/-- C5 (amended): the computed lead score equals the weighted sum of the
capped positive signals minus a recency decay of 5 points per full week of
inactivity **capped at 20 points**, clamped to `[0, 100]`. -/
theorem C5_lead_score_amended (mem : UserMemory) :
    calculate_lead_score mem = leadScoreAmended mem := by
  unfold calculate_lead_score leadScoreAmended
  cases mem.days_inactive <;> ring_nf

/-! ## Property match scoring, distance component — src/utils/scoring.py -/

/-- The distance component of `match_score` (src/utils/scoring.py): the
input is the property's raw distance field in metres, already parsed to a
number by `_parse_number`. -/
def distance_score (distance : ℚ) : ℚ :=
  let dist_km := distance / 1000
  if dist_km ≤ 2 then 20
  else if dist_km ≤ 5 then max 0 (20 - (dist_km - 2) * 4)
  else if dist_km ≤ 10 then max 0 (8 - (dist_km - 5))
  else 0

/-- The distance component exactly as claim C6 words it: full 20 points up
to 2 km, then a single linear decay reaching 0 at 10 km, and 0 for all
distances of 10 km or more. -/
def distanceScoreClaimed (distance : ℚ) : ℚ :=
  let dist_km := distance / 1000
  if dist_km ≤ 2 then 20
  else if dist_km < 10 then 20 - (dist_km - 2) * (20 / 8)
  else 0

/-- C6 counterexample to the claim as stated: at exactly 10 km (10000 m)
the code awards 3 points, not the 0 the single-linear-decay claim
requires. -/
theorem C6_counterexample :
    distance_score 10000 = 3 ∧ distanceScoreClaimed 10000 = 0 ∧ (3:ℚ) ≠ 0 := by
  refine ⟨?_, ?_, by norm_num⟩
  · rw [distance_score]
    norm_num
  · rw [distanceScoreClaimed]
    norm_num

/-- C6 (amended): the distance component awards the full 20 points at up
to 2 km and then decays piecewise linearly — 4 points per km from 2 km to
5 km (8 points at 5 km), then 1 point per km from 5 km to 10 km (3 points
at 10 km) — and is 0 only beyond 10 km. -/
theorem C6_distance_score_amended (distance : ℚ) :
    (distance / 1000 ≤ 2 → distance_score distance = 20) ∧
    (2 ≤ distance / 1000 → distance / 1000 ≤ 5 →
      distance_score distance = 20 - (distance / 1000 - 2) * 4) ∧
    (5 ≤ distance / 1000 → distance / 1000 ≤ 10 →
      distance_score distance = 8 - (distance / 1000 - 5)) ∧
    (10 < distance / 1000 → distance_score distance = 0) := by
  rw [distance_score]
  set k := distance / 1000 with hk
  refine ⟨?_, ?_, ?_, ?_⟩
  · intro h
    rw [if_pos h]
  · intro h2 h5
    by_cases hle2 : k ≤ 2
    · rw [if_pos hle2]
      have hkeq : k = 2 := le_antisymm hle2 h2
      rw [hkeq]
      norm_num
    · rw [if_neg hle2, if_pos h5]
      have : (0:ℚ) ≤ 20 - (k - 2) * 4 := by linarith
      rw [max_eq_right this]
  · intro h5 h10
    by_cases hle2 : k ≤ 2
    · exfalso; linarith
    · by_cases hle5 : k ≤ 5
      · rw [if_neg hle2, if_pos hle5]
        have hkeq : k = 5 := le_antisymm hle5 h5
        rw [hkeq]
        norm_num
      · rw [if_neg hle2, if_neg hle5, if_pos h10]
        have : (0:ℚ) ≤ 8 - (k - 5) := by linarith
        rw [max_eq_right this]
  · intro h
    rw [if_neg (by linarith), if_neg (by linarith), if_neg (by linarith)]

/-- Witness for C6 (amended) at 6000 m: the score is 8 − 1 = 7 points. -/
theorem C6_amended_witness :
    distance_score 6000 = 8 - ((6000:ℚ) / 1000 - 5) :=
  (C6_distance_score_amended 6000).2.2.1 (by norm_num) (by norm_num)

/-! ## Conversation summarizer — src/core/summarizer.py -/

/-- `SUMMARIZE_THRESHOLD` (src/core/summarizer.py, default from settings). -/
def SUMMARIZE_THRESHOLD : ℕ := 30

/-- `KEEP_RECENT` (src/core/summarizer.py, default from settings). -/
def KEEP_RECENT : ℕ := 10

/-- `settings.CONVERSATION_HISTORY_LIMIT` from src/config.py. -/
def CONVERSATION_HISTORY_LIMIT : ℕ := 20

/-- `SUMMARY_TAG_OPEN` from src/core/summarizer.py. -/
def SUMMARY_TAG_OPEN : String := "[CONVERSATION_SUMMARY]"

/-- `SUMMARY_TAG_CLOSE` from src/core/summarizer.py. -/
def SUMMARY_TAG_CLOSE : String := "[/CONVERSATION_SUMMARY]"

/-- The synthetic user message `maybe_summarize` builds around the model's
summary text. -/
def summaryUserMessage (summaryText : String) : Message :=
  ⟨"user",
    .ofText (SUMMARY_TAG_OPEN ++ "\n" ++
      "The following is a structured summary of our earlier conversation. " ++
      "Use this context to maintain continuity.\n\n" ++
      summaryText ++ "\n" ++ SUMMARY_TAG_CLOSE)⟩

/-- The synthetic assistant acknowledgment `maybe_summarize` appends. -/
def summaryAssistantMessage : Message :=
  ⟨"assistant",
    .ofText ("I\x27ve noted all the context from our earlier conversation. " ++
      "I\x27ll use this to provide consistent, informed responses. " ++
      "Please continue — how can I help?")⟩

/-- `maybe_summarize` from src/core/summarizer.py.  The summarization LLM
call is passed in as `llmSummary`: `some text` when the call succeeds with
the stripped summary text, `none` when it raises (the `except` branch then
falls back to plain tail truncation). -/
def maybe_summarize (messages : List Message) (llmSummary : Option String) :
    List Message :=
  if messages.length < SUMMARIZE_THRESHOLD then messages
  else
    match llmSummary with
    | some summaryText =>
      let recent := messages.drop (messages.length - KEEP_RECENT)
      [summaryUserMessage summaryText, summaryAssistantMessage] ++ recent
    | none => messages.drop (messages.length - CONVERSATION_HISTORY_LIMIT * 2)

/-- C7: when the history is at least `SUMMARIZE_THRESHOLD` long and the
summarization call succeeds, the result has exactly `2 + KEEP_RECENT`
messages and its last `KEEP_RECENT` entries are the last `KEEP_RECENT`
input messages, verbatim and in order. -/
theorem C7_summarization_roundtrip (messages : List Message)
    (summaryText : String) (h : SUMMARIZE_THRESHOLD ≤ messages.length) :
    (maybe_summarize messages (some summaryText)).length = 2 + KEEP_RECENT ∧
    (maybe_summarize messages (some summaryText)).drop
        ((maybe_summarize messages (some summaryText)).length - KEEP_RECENT) =
      messages.drop (messages.length - KEEP_RECENT) := by
  have hth : ¬(messages.length < SUMMARIZE_THRESHOLD) := by omega
  have hge : KEEP_RECENT ≤ messages.length := by
    rw [SUMMARIZE_THRESHOLD] at h
    rw [KEEP_RECENT]
    omega
  have hlen : (maybe_summarize messages (some summaryText)).length =
      2 + KEEP_RECENT := by
    rw [maybe_summarize, if_neg hth]
    simp only [List.length_append, List.length_cons, List.length_nil,
      List.length_drop]
    omega
  refine ⟨hlen, ?_⟩
  rw [hlen]
  rw [maybe_summarize, if_neg hth]
  simp

/-- Witness for C7 on a 30-message history. -/
theorem C7_witness :
    (maybe_summarize (List.replicate 30 ⟨"user", .ofText "hi"⟩)
        (some "S")).length = 2 + KEEP_RECENT ∧
    (maybe_summarize (List.replicate 30 ⟨"user", .ofText "hi"⟩)
        (some "S")).drop
        ((maybe_summarize (List.replicate 30 ⟨"user", .ofText "hi"⟩)
          (some "S")).length - KEEP_RECENT) =
      (List.replicate 30 (⟨"user", .ofText "hi"⟩ : Message)).drop
        ((List.replicate 30 (⟨"user", .ofText "hi"⟩ : Message)).length -
          KEEP_RECENT) :=
  C7_summarization_roundtrip (List.replicate 30 ⟨"user", .ofText "hi"⟩) "S"
    (by simp [SUMMARIZE_THRESHOLD])

/-! ## Preference merge — src/tools/broker/preferences.py -/

/-- The stored preferences record (a Redis-persisted JSON dict): `none`
models an absent key.  `deal_breakers` never lands in this record — the
tool routes it to cross-session user memory instead. -/
structure Preferences where
  location : Option String := none
  city : Option String := none
  min_budget : Option ℚ := none
  max_budget : Option ℚ := none
  move_in_date : Option String := none
  property_type : Option String := none
  unit_types_available : Option String := none
  pg_available_for : Option String := none
  sharing_types_enabled : Option String := none
  amenities : Option String := none
  must_have_amenities : Option String := none
  nice_to_have_amenities : Option String := none
  description : Option String := none
  commute_from : Option String := none
  deriving DecidableEq

/-- The arguments of one `save_preferences` tool call, with the Python
defaults: string parameters default to `""` and are considered provided
when truthy (non-empty); the `= None` parameters are considered provided
when not `None` (`isSome`). -/
structure SavePrefArgs where
  location : String := ""
  city : String := ""
  min_budget : Option ℚ := none
  max_budget : Option ℚ := none
  move_in_date : String := ""
  property_type : Option String := none
  unit_types_available : Option String := none
  pg_available_for : Option String := none
  sharing_types_enabled : Option String := none
  amenities : String := ""
  must_have_amenities : String := ""
  nice_to_have_amenities : String := ""
  description : String := ""
  commute_from : String := ""
  deriving DecidableEq

/-- `save_preferences` from src/tools/broker/preferences.py restricted to
the preferences record it writes back: each field of `existing` is
overwritten exactly when the call provides it (`if value:` truthiness for
string parameters, `is not None` for the optional ones). -/
def save_preferences (existing : Preferences) (a : SavePrefArgs) : Preferences :=
  { existing with
    location := if a.location ≠ "" then some a.location else existing.location,
    city := if a.city ≠ "" then some a.city else existing.city,
    min_budget := if a.min_budget.isSome then a.min_budget else existing.min_budget,
    max_budget := if a.max_budget.isSome then a.max_budget else existing.max_budget,
    move_in_date :=
      if a.move_in_date ≠ "" then some a.move_in_date else existing.move_in_date,
    property_type :=
      if a.property_type.isSome then a.property_type else existing.property_type,
    unit_types_available :=
      if a.unit_types_available.isSome then a.unit_types_available
      else existing.unit_types_available,
    pg_available_for :=
      if a.pg_available_for.isSome then a.pg_available_for
      else existing.pg_available_for,
    sharing_types_enabled :=
      if a.sharing_types_enabled.isSome then a.sharing_types_enabled
      else existing.sharing_types_enabled,
    amenities := if a.amenities ≠ "" then some a.amenities else existing.amenities,
    must_have_amenities :=
      if a.must_have_amenities ≠ "" then some a.must_have_amenities
      else existing.must_have_amenities,
    nice_to_have_amenities :=
      if a.nice_to_have_amenities ≠ "" then some a.nice_to_have_amenities
      else existing.nice_to_have_amenities,
    description :=
      if a.description ≠ "" then some a.description else existing.description,
    commute_from :=
      if a.commute_from ≠ "" then some a.commute_from else existing.commute_from }

/-- The fields of the preferences record, for field-generic statements. -/
inductive PrefField where
  | location | city | min_budget | max_budget | move_in_date
  | property_type | unit_types_available | pg_available_for
  | sharing_types_enabled | amenities | must_have_amenities
  | nice_to_have_amenities | description | commute_from
  deriving DecidableEq

/-- A stored field value: a string-valued or a numeric-valued entry. -/
def PrefVal : Type := String ⊕ ℚ

instance : DecidableEq PrefVal := instDecidableEqSum

/-- Read one field of a stored record. -/
def getField (p : Preferences) : PrefField → Option PrefVal
  | .location => p.location.map Sum.inl
  | .city => p.city.map Sum.inl
  | .min_budget => p.min_budget.map Sum.inr
  | .max_budget => p.max_budget.map Sum.inr
  | .move_in_date => p.move_in_date.map Sum.inl
  | .property_type => p.property_type.map Sum.inl
  | .unit_types_available => p.unit_types_available.map Sum.inl
  | .pg_available_for => p.pg_available_for.map Sum.inl
  | .sharing_types_enabled => p.sharing_types_enabled.map Sum.inl
  | .amenities => p.amenities.map Sum.inl
  | .must_have_amenities => p.must_have_amenities.map Sum.inl
  | .nice_to_have_amenities => p.nice_to_have_amenities.map Sum.inl
  | .description => p.description.map Sum.inl
  | .commute_from => p.commute_from.map Sum.inl

/-- The value a call provides for one field, `none` when the call does not
provide that field (per the code's truthiness and `is not None` guards). -/
def argField (a : SavePrefArgs) : PrefField → Option PrefVal
  | .location => if a.location ≠ "" then some (Sum.inl a.location) else none
  | .city => if a.city ≠ "" then some (Sum.inl a.city) else none
  | .min_budget => a.min_budget.map Sum.inr
  | .max_budget => a.max_budget.map Sum.inr
  | .move_in_date =>
    if a.move_in_date ≠ "" then some (Sum.inl a.move_in_date) else none
  | .property_type => a.property_type.map Sum.inl
  | .unit_types_available => a.unit_types_available.map Sum.inl
  | .pg_available_for => a.pg_available_for.map Sum.inl
  | .sharing_types_enabled => a.sharing_types_enabled.map Sum.inl
  | .amenities => if a.amenities ≠ "" then some (Sum.inl a.amenities) else none
  | .must_have_amenities =>
    if a.must_have_amenities ≠ "" then some (Sum.inl a.must_have_amenities)
    else none
  | .nice_to_have_amenities =>
    if a.nice_to_have_amenities ≠ "" then some (Sum.inl a.nice_to_have_amenities)
    else none
  | .description =>
    if a.description ≠ "" then some (Sum.inl a.description) else none
  | .commute_from =>
    if a.commute_from ≠ "" then some (Sum.inl a.commute_from) else none

lemma str_field_or {β : Type} (c : String → β) (s : String) (p0 : Option String) :
    Option.map c (if s ≠ "" then some s else p0) =
      (if s ≠ "" then some (c s) else none).or (Option.map c p0) := by
  split <;> simp

lemma opt_field_or {α β : Type} (c : α → β) (o p0 : Option α) :
    Option.map c (if o.isSome then o else p0) =
      (Option.map c o).or (Option.map c p0) := by
  cases o <;> simp

/-- One call writes exactly its provided fields and leaves the rest. -/
lemma save_preferences_getField (p : Preferences) (a : SavePrefArgs)
    (f : PrefField) :
    getField (save_preferences p a) f =
      (argField a f).or (getField p f) := by
  cases f <;>
    simp only [save_preferences, getField, argField] <;>
    first
      | exact str_field_or _ _ _
      | exact opt_field_or _ _ _

/-- C9: `save_preferences` merges field-by-field — a second call providing
a field overwrites just that field's value, and two calls with disjoint
provided-field sets yield the union: each field ends at the value of
whichever call provided it, at the original value when neither did. -/
theorem C9_preference_merge (p : Preferences) (a1 a2 : SavePrefArgs) :
    (∀ f, (argField a2 f).isSome →
      getField (save_preferences (save_preferences p a1) a2) f = argField a2 f) ∧
    ((∀ f, ¬((argField a1 f).isSome ∧ (argField a2 f).isSome)) →
      ∀ f,
        getField (save_preferences (save_preferences p a1) a2) f =
          (argField a2 f).or ((argField a1 f).or (getField p f)) ∧
        getField (save_preferences (save_preferences p a1) a2) f =
          getField (save_preferences (save_preferences p a2) a1) f) := by
  constructor
  · intro f hf
    rw [save_preferences_getField]
    obtain ⟨v, hv⟩ := Option.isSome_iff_exists.mp hf
    rw [hv]
    simp
  · intro hdisj f
    refine ⟨by rw [save_preferences_getField, save_preferences_getField], ?_⟩
    rw [save_preferences_getField, save_preferences_getField,
      save_preferences_getField, save_preferences_getField]
    cases h1 : argField a1 f with
    | some v1 =>
      cases h2 : argField a2 f with
      | some v2 =>
        exact absurd ⟨by rw [h1]; rfl, by rw [h2]; rfl⟩ (hdisj f)
      | none => simp
    | none => cases h2 : argField a2 f <;> simp

/-- Witness for C9: after saving `location = "andheri"` and then
`min_budget = 5000` (disjoint field sets) on an empty record, the budget
comes from the second call and the location survives from the first. -/
theorem C9_witness :
    (getField (save_preferences (save_preferences {} { location := "andheri" })
        { min_budget := some 5000 }) PrefField.min_budget =
      argField { min_budget := some 5000 } PrefField.min_budget) ∧
    (getField (save_preferences (save_preferences {} { location := "andheri" })
        { min_budget := some 5000 }) PrefField.location =
      (argField { min_budget := some 5000 } PrefField.location).or
        ((argField { location := "andheri" } PrefField.location).or
          (getField {} PrefField.location))) := by
  have happ := C9_preference_merge {} { location := "andheri" }
    { min_budget := some 5000 }
  refine ⟨happ.1 PrefField.min_budget rfl, ?_⟩
  exact (happ.2 (by intro f; cases f <;> simp [argField]) PrefField.location).1

end Spec2Proof
